import Mathlib

/-!
Shallow embedding of the quick-env CLI (src/bin/quickenv.js): the interactive
list-selector widget with its line-based redraw protocol, and the config
store, key/value validation, shell-export formatting and list command, with
theorems checking the documented behaviour against this embedding.
-/

namespace QuickEnv

/-- Output sink of a single write: standard output or standard error. -/
inductive Sink
  | stdout
  | stderr
deriving DecidableEq

/-- One write of `data` to `sink` (models `process.stdout.write` and
`process.stderr.write`). -/
structure OutEvent where
  sink : Sink
  data : String
deriving DecidableEq

/-- Model of `writeStderr(str)`: one write to the error stream. -/
def writeStderr (s : String) : List OutEvent := [⟨Sink.stderr, s⟩]

/-- Model of `console.error(s)`: writes `s` plus a newline to the error stream. -/
def consoleError (s : String) : List OutEvent := [⟨Sink.stderr, s ++ "\n"⟩]

/-- Model of `console.log(s)`: writes `s` plus a newline to standard output. -/
def consoleLog (s : String) : List OutEvent := [⟨Sink.stdout, s ++ "\n"⟩]

/-- Model of `_color(open, close)`: wrap a string in an ANSI open/close pair. -/
def colorWrap (openSeq closeSeq s : String) : String := openSeq ++ s ++ closeSeq

/-- Model of `c.bold`. -/
def cBold (s : String) : String := colorWrap "\x1b[1m" "\x1b[22m" s

/-- Model of `c.dim`. -/
def cDim (s : String) : String := colorWrap "\x1b[2m" "\x1b[22m" s

/-- Model of `c.red`. -/
def cRed (s : String) : String := colorWrap "\x1b[31m" "\x1b[39m" s

/-- Model of `c.green`. -/
def cGreen (s : String) : String := colorWrap "\x1b[32m" "\x1b[39m" s

/-- Model of `c.yellow`. -/
def cYellow (s : String) : String := colorWrap "\x1b[33m" "\x1b[39m" s

/-- Model of `c.cyan`. -/
def cCyan (s : String) : String := colorWrap "\x1b[36m" "\x1b[39m" s

/-- Model of `c.gray`. -/
def cGray (s : String) : String := colorWrap "\x1b[90m" "\x1b[39m" s

/-- Model of `Array.prototype.join(sep)` on a list of strings. -/
def joinWith : String → List String → String
  | _, [] => ""
  | _, [x] => x
  | sep, x :: y :: rest => x ++ sep ++ joinWith sep (y :: rest)

/-- The cursor-up-one-line-and-clear-it escape sequence emitted by `clearLines`. -/
def eraseSeq : String := "\x1b[1A\x1b[2K"

/-- Model of `clearLines(count)`: emit `count` cursor-up-and-clear sequences
on the error stream (the source loops `count` times writing `eraseSeq`). -/
def clearLines (count : Nat) : List OutEvent :=
  (List.range count).flatMap (fun _ => writeStderr eraseSeq)

/-- Number of newline characters in a string: the number of physical terminal
lines a write of that string completes. -/
def countNewlines (s : String) : Nat := s.data.countP (fun ch => ch == Char.ofNat 10)

/-- Recognized key events of the widget.  The source switches on `key.name`
(`"up"`, `"down"`, `"return"`/`"enter"`, `"escape"`, `"c"` with `ctrl`);
`other` stands for a null `key` or any unrecognized key, which is ignored. -/
inductive Key
  | up
  | down
  | enter
  | escape
  | ctrlC
  | other
deriving DecidableEq

/-- State of one `selectMenuInteractively` session.  `renderedLines` mirrors
the `renderedLines` closure variable; `rawMode`, `listening`, `paused`,
`closed` track the input source (`setRawMode`, the keypress listener,
`pause()` and `destroy()`); `needClose` records whether the widget opened
`/dev/tty` itself; `done = some r` means the promise has resolved with `r`
(`some item` for a pick, `none` for null/cancel). -/
structure MenuState where
  items : List String
  title : String
  idx : Nat
  renderedLines : Nat
  rawMode : Bool
  listening : Bool
  paused : Bool
  needClose : Bool
  closed : Bool
  inputIsTTY : Bool
  done : Option (Option String)
deriving DecidableEq

/-- The trailing hint line of every render. -/
def hintLine : String := cDim "↑/↓ to move, Enter to confirm, Esc to cancel"

/-- One item line: `` ` ${pointer} ${label}` `` with a green pointer glyph and
green bold label when selected. -/
def itemLine (label : String) (sel : Bool) : String :=
  let pointer := if sel then cGreen "›" else " "
  let lbl := if sel then cGreen (cBold label) else label
  " " ++ pointer ++ " " ++ lbl

/-- The block of logical lines built by each render pass: header, one line per
item, trailing hint line. -/
def menuLines (title : String) (items : List String) (idx : Nat) : List String :=
  cCyan (cBold title) :: (items.enum.map (fun p => itemLine p.2 (p.1 == idx))) ++ [hintLine]

/-- Model of the widget `render()` closure: erase the previously rendered
block if any, write the new block (lines joined by newlines plus a trailing
newline) to the error stream, and record the block line count. -/
def render (s : MenuState) : MenuState × List OutEvent :=
  let lines := menuLines s.title s.items s.idx
  let evs := (if s.renderedLines > 0 then clearLines s.renderedLines else []) ++
    writeStderr (joinWith "\n" lines ++ "\n")
  ({ s with renderedLines := lines.length }, evs)

/-- Model of the widget `cleanup()` closure: erase the rendered block and
reset `renderedLines`. -/
def cleanup (s : MenuState) : MenuState × List OutEvent :=
  if s.renderedLines > 0 then
    ({ s with renderedLines := 0 }, clearLines s.renderedLines)
  else
    (s, [])

/-- Model of the widget `stop()` closure: remove the keypress listener,
restore cooked mode, pause the stream, and destroy the handle when the widget
opened it itself. -/
def stopWidget (s : MenuState) : MenuState :=
  let s1 := { s with listening := false, rawMode := false, paused := true }
  if s1.needClose then { s1 with closed := true } else s1

/-- Model of the widget `onKeypress` handler.  A resolved session no longer
processes keys (the listener was removed by `stop()`).  Up and down update the
index with wrap-around and re-render; for a non-empty list
`(idx - 1 + N) % N` is written `(idx + N - 1) % N` in Nat arithmetic.
Enter cleans up, stops and resolves with `items[idx]`; Escape and Ctrl+C
clean up, stop and resolve with null. -/
def onKeypress (s : MenuState) (k : Key) : MenuState × List OutEvent :=
  match s.done with
  | some _ => (s, [])
  | none =>
    match k with
    | Key.up => render { s with idx := (s.idx + s.items.length - 1) % s.items.length }
    | Key.down => render { s with idx := (s.idx + 1) % s.items.length }
    | Key.enter =>
      let r := cleanup s
      let s2 := stopWidget r.1
      ({ s2 with done := some (s2.items.get? s2.idx) }, r.2)
    | Key.escape =>
      let r := cleanup s
      let s2 := stopWidget r.1
      ({ s2 with done := some none }, r.2)
    | Key.ctrlC =>
      let r := cleanup s
      let s2 := stopWidget r.1
      ({ s2 with done := some none }, r.2)
    | Key.other => (s, [])

/-- Feed a list of key events to the widget, collecting all output. -/
def runKeys : MenuState → List Key → MenuState × List OutEvent
  | s, [] => (s, [])
  | s, k :: ks =>
    let r1 := onKeypress s k
    let r2 := runKeys r1.1 ks
    (r2.1, r1.2 ++ r2.2)

/-- Model of `Math.max(0, Math.min(initialIndex, Math.max(items.length - 1, 0)))`. -/
def clampInitialIndex (initialIndex len : Nat) : Nat :=
  max 0 (min initialIndex (max (len - 1) 0))

/-- The message reported by `selectMenuInteractively` when no interactive
terminal is available. -/
def nonInteractiveMenuMsg : String :=
  cRed "Non-interactive environment. Use command form instead."

/-- Outcome of starting a selector session: either the non-interactive
failure (the promise resolves null immediately after reporting), or an
initialized state together with the initial render output. -/
inductive StartOutcome
  | failed (events : List OutEvent)
  | started (s : MenuState) (events : List OutEvent)
deriving DecidableEq

/-- Model of the setup phase of `selectMenuInteractively(items, opts)`.
`stdinIsTTY` is `process.stdin.isTTY`; `devTtyOk` is whether
`fs.openSync("/dev/tty", "r")` succeeds (only attempted when standard input
is not a TTY).  When neither is available the widget reports the
non-interactive condition and resolves null at once.  Otherwise the input is
a TTY stream (so raw mode is set), the keypress listener is installed, the
stream is resumed, and the first render runs. -/
def selectMenuStart (stdinIsTTY devTtyOk : Bool) (items : List String)
    (title : String) (initialIndex : Nat) : StartOutcome :=
  if !stdinIsTTY && !devTtyOk then
    StartOutcome.failed (consoleError nonInteractiveMenuMsg)
  else
    let needClose := !stdinIsTTY
    let s0 : MenuState :=
      { items := items, title := title,
        idx := clampInitialIndex initialIndex items.length,
        renderedLines := 0, rawMode := false, listening := false, paused := true,
        needClose := needClose, closed := false, inputIsTTY := true, done := none }
    let s1 := if s0.inputIsTTY then { s0 with rawMode := true } else s0
    let s2 := { s1 with paused := false, listening := true }
    let r := render s2
    StartOutcome.started r.1 r.2

/-- A whole selector session: setup followed by a list of key events.  The
first component is the resolution (`none`: the promise is still pending;
`some none`: resolved null, i.e. cancelled or non-interactive; `some (some x)`:
resolved with the picked item); the second is everything written. -/
def selectMenuSession (stdinIsTTY devTtyOk : Bool) (items : List String)
    (title : String) (initialIndex : Nat) (keys : List Key) :
    Option (Option String) × List OutEvent :=
  match selectMenuStart stdinIsTTY devTtyOk items title initialIndex with
  | StartOutcome.failed evs => (some none, evs)
  | StartOutcome.started s evs =>
    let r := runKeys s keys
    (r.1.done, evs ++ r.2)

/-- The widget state after setup and a list of key events (`none` when setup
failed non-interactively). -/
def selectMenuAfterKeys (stdinIsTTY devTtyOk : Bool) (items : List String)
    (title : String) (initialIndex : Nat) (keys : List Key) : Option MenuState :=
  match selectMenuStart stdinIsTTY devTtyOk items title initialIndex with
  | StartOutcome.failed _ => none
  | StartOutcome.started s _ => some (runKeys s keys).1

/-- Whether an output event is one cursor-up-and-clear sequence on stderr. -/
def isEraseEvent (e : OutEvent) : Bool := e.sink == Sink.stderr && e.data == eraseSeq

/-- One render pass as seen by an instrumented output sink: how many erase
sequences preceded the block write, and how many physical lines the block
write completed. -/
structure RenderPass where
  erased : Nat
  written : Nat
deriving DecidableEq

/-- Fold an output trace into render passes: consecutive erase sequences are
counted into the pass of the next block write; trailing erases (final
cleanup) belong to no pass. -/
def passesGo : Nat → List OutEvent → List RenderPass
  | _, [] => []
  | acc, e :: rest =>
    if isEraseEvent e then passesGo (acc + 1) rest
    else ⟨acc, countNewlines e.data⟩ :: passesGo 0 rest

/-- Render passes of an output trace. -/
def passesOfTrace (evs : List OutEvent) : List RenderPass := passesGo 0 evs

/-- Redraw consistency of a pass list: every pass after the first erases
exactly as many lines as the previous pass wrote. -/
def chainOk : List RenderPass → Bool
  | [] => true
  | [_] => true
  | p :: q :: rest => (q.erased == p.written) && chainOk (q :: rest)

/-- The block write of a render from state `s`, as an output event. -/
def blockEvent (s : MenuState) : OutEvent :=
  ⟨Sink.stderr, joinWith "\n" (menuLines s.title s.items s.idx) ++ "\n"⟩

/-- The item list of the worked scenario in the specification. -/
def demoItems : List String := ["dev", "staging", "prod"]

/-- The single-quote character. -/
def squote : Char := Char.ofNat 39

/-- The backslash character. -/
def backslashChar : Char := Char.ofNat 92

/-- Character-level model of `s.replace(/'/g, "'\\''")`: each single quote
becomes quote, backslash, quote, quote; every other character is kept. -/
def quoteChar (ch : Char) : List Char :=
  if ch == squote then [squote, backslashChar, squote, squote] else [ch]

/-- Model of `shellQuote(value)`: wrap in single quotes, escaping embedded
single quotes. -/
def shellQuote (value : String) : String :=
  String.mk (squote :: value.data.flatMap quoteChar ++ [squote])

/-- Whether a character belongs to the class `[A-Z0-9_]`. -/
def isKeyChar (ch : Char) : Bool :=
  (decide (Char.ofNat 65 ≤ ch) && decide (ch ≤ Char.ofNat 90)) ||
  (decide (Char.ofNat 48 ≤ ch) && decide (ch ≤ Char.ofNat 57)) ||
  ch == Char.ofNat 95

/-- Model of `isValidKey(key)`: the regex `^[A-Z0-9_]+$`, i.e. a non-empty
string of uppercase letters, digits and underscores. -/
def isValidKey (key : String) : Bool :=
  !key.data.isEmpty && key.data.all isKeyChar

/-- Model of `hasNewline(val)`: the regex `/\r|\n/` tested against the value. -/
def hasNewline (val : String) : Bool :=
  val.data.any (fun ch => ch == Char.ofNat 13 || ch == Char.ofNat 10)

/-- One shell export statement: `` `export ${k}=${shellQuote(v)};` ``. -/
def exportStatement (k v : String) : String :=
  "export " ++ k ++ "=" ++ shellQuote v ++ ";"

/-- The export statements of `cmdUse` joined with newlines. -/
def exportOut (vars : List (String × String)) : String :=
  joinWith "\n" (vars.map (fun p => exportStatement p.1 p.2))

/-- What `cmdUse` writes to standard output: the joined statements plus a
trailing newline when non-empty (`out + (out ? "\n" : "")`). -/
def cmdUseStdout (vars : List (String × String)) : String :=
  let out := exportOut vars
  out ++ (if out == "" then "" else "\n")

/-- Typed view of the persisted configuration: the current preset name (or
null) and the presets, each an ordered association of keys to values. -/
structure Config where
  current : Option String
  envs : List (String × List (String × String))
deriving DecidableEq

/-- Model of `cfg.envs[name]` (property lookup on the presets object). -/
def lookupEnv (cfg : Config) (name : String) : Option (List (String × String)) :=
  (cfg.envs.find? (fun p => p.1 == name)).map Prod.snd

/-- Observable side effects of a command run. -/
inductive Effect
  | stdoutWrite (s : String)
  | stderrLine (s : String)
  | saveConfig (cfg : Config)
  | exitErr
deriving DecidableEq

/-- First validation failure found by the `cmdUse` loop over
`Object.entries(vars)`: an invalid key name, or a value with a line break. -/
inductive Violation
  | badKey (k : String)
  | newlineValue (k : String)
deriving DecidableEq

/-- Scan the pairs in order, as the source loop does, returning the first
violation. -/
def firstViolation : List (String × String) → Option Violation
  | [] => none
  | (k, v) :: rest =>
    if !isValidKey k then some (Violation.badKey k)
    else if hasNewline v then some (Violation.newlineValue k)
    else firstViolation rest

/-- Model of `cmdUse(name)` with the preset name given (the interactive
selection path is bypassed): look up the preset, validate every pair, and
only then persist the new current preset and write the export lines. -/
def cmdUseRun (cfg : Config) (name : String) : List Effect :=
  match lookupEnv cfg name with
  | none =>
    [Effect.stderrLine ("Preset not found: " ++ name),
     Effect.stderrLine "Use `quickenv list` to view existing presets.",
     Effect.exitErr]
  | some vars =>
    match firstViolation vars with
    | some (Violation.badKey k) =>
      [Effect.stderrLine ("Invalid key name: " ++ k ++ ". Should match [A-Z0-9_]+"),
       Effect.exitErr]
    | some (Violation.newlineValue k) =>
      [Effect.stderrLine ("Value contains newline; cannot export: " ++ k),
       Effect.stderrLine "Please make it a single line via `quickenv set`.",
       Effect.exitErr]
    | none =>
      [Effect.saveConfig { cfg with current := some name },
       Effect.stdoutWrite (cmdUseStdout vars)]

/-- Insert a string into a sorted list (helper for the default lexicographic
sort applied to preset and key names). -/
def insertSorted (x : String) : List String → List String
  | [] => [x]
  | y :: ys => if decide (x ≤ y) then x :: y :: ys else y :: insertSorted x ys

/-- Model of `Array.prototype.sort()` on names: lexicographic string sort. -/
def sortStrings (l : List String) : List String := l.foldr insertSorted []

/-- Model of `padRight(str, len)`. -/
def padRight (str : String) (len : Nat) : String :=
  if len ≤ str.length then str
  else str ++ String.mk (List.replicate (len - str.length) (Char.ofNat 32))

/-- Model of `printAlignedVars(vars)`: aligned `KEY = value` lines on stdout,
keys sorted, or a dim placeholder when empty. -/
def printAlignedVars (vars : List (String × String)) : List OutEvent :=
  match vars with
  | [] => consoleLog (cDim "(no variables)")
  | _ =>
    let width := (vars.map (fun p => p.1.length)).foldl max 0
    (sortStrings (vars.map Prod.fst)).flatMap (fun k =>
      let val := ((vars.find? (fun p => p.1 == k)).map Prod.snd).getD ""
      consoleLog (cCyan (cBold (padRight k width)) ++ " " ++ cDim "=" ++ " " ++ val))

/-- Number of keys of a preset (0 for a missing preset). -/
def presetCount (cfg : Config) (n : String) : Nat :=
  ((lookupEnv cfg n).getD []).length

/-- The plain (non-interactive or cancelled) branch of `cmdList`: print the
preset names with bullets, counts and the current marker on stdout. -/
def cmdListFallbackOut (cfg : Config) (names : List String) : List OutEvent :=
  consoleLog (cCyan (cBold "Presets") ++ " " ++ cDim ("(" ++ toString names.length ++ ")")) ++
  names.flatMap (fun n =>
    let isCurrent := cfg.current == some n
    let bullet := if isCurrent then cGreen "★" else cGray "•"
    let label := if isCurrent then cGreen (cBold n) else n
    let meta := toString (presetCount cfg n) ++ (if isCurrent then " · current" else "")
    consoleLog (" " ++ bullet ++ " " ++ label ++ " " ++ cDim ("[" ++ meta ++ "]")))

/-- The picked branch of `cmdList`: show the selected preset and its
variables on stdout. -/
def cmdListShowPicked (cfg : Config) (picked : String) : List OutEvent :=
  let vars := (lookupEnv cfg picked).getD []
  consoleLog (cCyan (cBold "Preset: ") ++ picked ++ " " ++
    cDim ("[" ++ toString vars.length ++ "]")) ++
  consoleLog "" ++
  printAlignedVars vars

/-- Model of `Array.prototype.indexOf` on strings: the index of the first
occurrence, or -1. -/
def jsIndexOfGo : Nat → String → List String → Int
  | _, _, [] => -1
  | i, s, y :: ys => if y == s then (i : Int) else jsIndexOfGo (i + 1) s ys

/-- Model of `names.indexOf(s)`. -/
def jsIndexOf (names : List String) (s : String) : Int := jsIndexOfGo 0 s names

/-- Model of `cmdList()`: sort the preset names, bail out when there are
none, otherwise run the interactive selector and either show the picked
preset or fall back to plain list printing when the selector resolved null.
Returns `none` when the selector session never resolved (the widget would
still be waiting for keys). -/
def cmdListRun (cfg : Config) (stdinIsTTY devTtyOk : Bool) (keys : List Key) :
    Option (List OutEvent) :=
  let names := sortStrings (cfg.envs.map Prod.fst)
  if names.isEmpty then some (consoleLog (cDim "(no presets)"))
  else
    let currentIdx := Int.toNat (max 0 (match cfg.current with
      | some cur => jsIndexOf names cur
      | none => 0))
    match selectMenuSession stdinIsTTY devTtyOk names "Select a preset:" currentIdx keys with
    | (none, _) => none
    | (some none, evs) => some (evs ++ cmdListFallbackOut cfg names)
    | (some (some picked), evs) => some (evs ++ cmdListShowPicked cfg picked)

/-- JSON values as produced by `JSON.parse` (numbers restricted to the
integers, which covers every value the program itself ever writes). -/
inductive Json
  | null
  | bool (b : Bool)
  | num (n : Int)
  | str (s : String)
  | arr (elems : List Json)
  | obj (fields : List (String × Json))

/-- JavaScript falsiness of a JSON value (`!cfg`). -/
def isFalsy : Json → Bool
  | Json.null => true
  | Json.bool b => !b
  | Json.num n => n == 0
  | Json.str s => s == ""
  | Json.arr _ => false
  | Json.obj _ => false

/-- Whether `typeof v === "object"` holds for a JSON value (true for null,
arrays and objects). -/
def typeofIsObject : Json → Bool
  | Json.null => true
  | Json.arr _ => true
  | Json.obj _ => true
  | _ => false

/-- Property read on a JSON value; `none` models `undefined`. -/
def objGet : Json → String → Option Json
  | Json.obj fields, k => (fields.find? (fun p => p.1 == k)).map Prod.snd
  | _, _ => none

/-- Model of the `in` operator: whether the property is present. -/
def objHas (j : Json) (k : String) : Bool := (objGet j k).isSome

/-- Property write on a JSON object (other values are left unchanged; the
source only assigns after the object check). -/
def objSet : Json → String → Json → Json
  | Json.obj fields, k, v =>
    if (fields.find? (fun p => p.1 == k)).isSome then
      Json.obj (fields.map (fun p => if p.1 == k then (k, v) else p))
    else
      Json.obj (fields ++ [(k, v)])
  | j, _, _ => j

/-- Model of `defaultConfig()` as a JSON value. -/
def defaultConfigJson : Json := Json.obj [("current", Json.null), ("envs", Json.obj [])]

/-- Result of loading the config file: a usable configuration value, or the
corruption error path (two `console.error` lines and `process.exit(1)`). -/
inductive ReadResult
  | ok (cfg : Json)
  | corrupted

/-- Whitespace for the purpose of `String.prototype.trim` (ASCII whitespace
plus the non-breaking space, BOM and line/paragraph separators). -/
def isJsWhitespace (ch : Char) : Bool :=
  ch == Char.ofNat 32 || ch == Char.ofNat 9 || ch == Char.ofNat 10 ||
  ch == Char.ofNat 11 || ch == Char.ofNat 12 || ch == Char.ofNat 13 ||
  ch == Char.ofNat 160 || ch == Char.ofNat 65279 ||
  ch == Char.ofNat 8232 || ch == Char.ofNat 8233

/-- Model of `raw.trim()`. -/
def jsTrim (s : String) : String :=
  String.mk (((s.data.dropWhile isJsWhitespace).reverse.dropWhile isJsWhitespace).reverse)

/-- Model of `readConfig()`.  `fileExists` is `fs.existsSync(CONFIG_PATH)`;
`raw` is the file content; `parsed` is the outcome of `JSON.parse(raw)`
(`none` models a parse error).  A missing or blank file yields the default
config; a parse error or a non-object value is the corruption path; otherwise
the `envs` and `current` fields are patched up as in the source. -/
def readConfig (fileExists : Bool) (raw : String) (parsed : Option Json) : ReadResult :=
  if !fileExists then ReadResult.ok defaultConfigJson
  else if jsTrim raw == "" then ReadResult.ok defaultConfigJson
  else
    match parsed with
    | none => ReadResult.corrupted
    | some cfg =>
      if isFalsy cfg || !typeofIsObject cfg then ReadResult.corrupted
      else
        let envsOk := match objGet cfg "envs" with
          | none => false
          | some e => !isFalsy e && typeofIsObject e
        let cfg1 := if !envsOk then objSet cfg "envs" (Json.obj []) else cfg
        let cfg2 := if !objHas cfg1 "current" then objSet cfg1 "current" Json.null else cfg1
        ReadResult.ok cfg2

/-- Hexadecimal digit characters. -/
def hexDigits : List Char := "0123456789abcdef".data

/-- One lowercase hexadecimal digit. -/
def hexDigit (n : Nat) : Char := hexDigits.getD n (Char.ofNat 48)

/-- Two lowercase hexadecimal digits of a byte. -/
def hexByte (n : Nat) : String := String.mk [hexDigit (n / 16), hexDigit (n % 16)]

/-- JSON string escaping of one character, as `JSON.stringify` performs it. -/
def jsonEscapeChar (ch : Char) : String :=
  if ch == Char.ofNat 34 then String.mk [backslashChar, Char.ofNat 34]
  else if ch == backslashChar then String.mk [backslashChar, backslashChar]
  else if ch == Char.ofNat 10 then String.mk [backslashChar, Char.ofNat 110]
  else if ch == Char.ofNat 13 then String.mk [backslashChar, Char.ofNat 114]
  else if ch == Char.ofNat 9 then String.mk [backslashChar, Char.ofNat 116]
  else if ch == Char.ofNat 8 then String.mk [backslashChar, Char.ofNat 98]
  else if ch == Char.ofNat 12 then String.mk [backslashChar, Char.ofNat 102]
  else if decide (ch.toNat < 32) then "\\u00" ++ hexByte ch.toNat
  else String.singleton ch

/-- A JSON string literal. -/
def jsonQuote (s : String) : String :=
  "\"" ++ String.join (s.data.map jsonEscapeChar) ++ "\""

/-- An indentation of `n` spaces. -/
def spaces (n : Nat) : String := String.mk (List.replicate n (Char.ofNat 32))

mutual

/-- Model of `JSON.stringify(v, null, 2)` at indentation level `ind`. -/
def stringifyVal : Nat → Json → String
  | _, Json.null => "null"
  | _, Json.bool true => "true"
  | _, Json.bool false => "false"
  | _, Json.num n => toString n
  | _, Json.str s => jsonQuote s
  | _, Json.arr [] => "[]"
  | ind, Json.arr (x :: xs) =>
    "[\n" ++ stringifyItems (ind + 2) (x :: xs) ++ "\n" ++ spaces ind ++ "]"
  | _, Json.obj [] => "\x7b\x7d"
  | ind, Json.obj (f :: fs) =>
    "\x7b\n" ++ stringifyFields (ind + 2) (f :: fs) ++ "\n" ++ spaces ind ++ "\x7d"

/-- Array elements, one per line at the given indentation. -/
def stringifyItems : Nat → List Json → String
  | _, [] => ""
  | ind, [x] => spaces ind ++ stringifyVal ind x
  | ind, x :: y :: rest =>
    spaces ind ++ stringifyVal ind x ++ ",\n" ++ stringifyItems ind (y :: rest)

/-- Object fields, one per line at the given indentation. -/
def stringifyFields : Nat → List (String × Json) → String
  | _, [] => ""
  | ind, [(k, v)] => spaces ind ++ jsonQuote k ++ ": " ++ stringifyVal ind v
  | ind, (k, v) :: g :: rest =>
    spaces ind ++ jsonQuote k ++ ": " ++ stringifyVal ind v ++ ",\n" ++
    stringifyFields ind (g :: rest)

end

/-- File-system operations performed by the config store. -/
inductive FsOp
  | mkdirRec (p : String)
  | write (p : String) (data : String)
  | rename (src : String) (dst : String)
deriving DecidableEq

/-- Model of `CONFIG_DIR` relative to the home directory. -/
def configDir (home : String) : String := home ++ "/.quick-env"

/-- Model of `CONFIG_PATH`. -/
def configPath (home : String) : String := configDir home ++ "/config.json"

/-- The temporary path used by `writeConfig`, built from `Date.now()` and
`process.pid`. -/
def tmpPath (home : String) (now pid : Nat) : String :=
  configDir home ++ "/config." ++ toString now ++ "." ++ toString pid ++ ".tmp"

/-- Model of `writeConfig(cfg)`: ensure the directory, write the serialized
config plus a newline to a temporary path, then rename it over the target. -/
def writeConfig (home : String) (now pid : Nat) (cfg : Json) : List FsOp :=
  [FsOp.mkdirRec (configDir home),
   FsOp.write (tmpPath home now pid) (stringifyVal 0 cfg ++ "\n"),
   FsOp.rename (tmpPath home now pid) (configPath home)]

/-- Specification-side model of POSIX shell word parsing restricted to
single quotes and backslash escapes: outside quotes a backslash escapes the
next character and a quote opens a quoted span; inside a quoted span every
character is literal until the closing quote.  Returns the characters the
shell would see, or `none` for an unterminated construct.  The flag is true
inside a quoted span. -/
def shellParseGo : Bool → List Char → Option (List Char)
  | false, [] => some []
  | true, [] => none
  | false, ch :: rest =>
    if ch == squote then shellParseGo true rest
    else if ch == backslashChar then
      match rest with
      | [] => none
      | e :: rest2 => (shellParseGo false rest2).map (fun tl => e :: tl)
    else (shellParseGo false rest).map (fun tl => ch :: tl)
  | true, ch :: rest =>
    if ch == squote then shellParseGo false rest
    else (shellParseGo true rest).map (fun tl => ch :: tl)

/-- The word a POSIX shell reads from `s` (specification-side definition used
to check that quoting survives shell evaluation). -/
def shellParseWord (s : String) : Option String :=
  (shellParseGo false s.data).map String.mk

/-- Split a character list on a separator character (every line, including a
trailing empty one). -/
def splitCharsOn (sep : Char) : List Char → List (List Char)
  | [] => [[]]
  | c :: cs =>
    if c == sep then [] :: splitCharsOn sep cs
    else
      match splitCharsOn sep cs with
      | [] => [[c]]
      | g :: gs => (c :: g) :: gs

/-- The lines of a string, splitting on newline characters. -/
def linesOf (s : String) : List String :=
  (splitCharsOn (Char.ofNat 10) s.data).map String.mk

/-- The widget state right after a successful interactive setup of
`selectMenuInteractively` with both stdin a TTY (so no handle is opened). -/
def startedState (items : List String) (title : String) (i0 : Nat) : MenuState :=
  { items := items, title := title, idx := clampInitialIndex i0 items.length,
    renderedLines := items.length + 2, rawMode := true, listening := true,
    paused := false, needClose := false, closed := false, inputIsTTY := true,
    done := none }

/-- A concrete value containing an embedded single quote, for witnesses. -/
def demoValue : String := String.mk [Char.ofNat 97, squote, Char.ofNat 98]

/-- A concrete validated variable list, for witnesses. -/
def demoVars : List (String × String) := [("FOO", demoValue)]

/-- A concrete configuration with two presets, for witnesses. -/
def demoConfig : Config :=
  { current := some "dev", envs := [("dev", [("API_URL", "x")]), ("prod", [])] }

theorem countNewlines_append (a b : String) :
    countNewlines (a ++ b) = countNewlines a + countNewlines b := by
  simp [countNewlines, String.data_append, List.countP_append]

theorem countNewlines_colorWrap (o c s : String) (ho : countNewlines o = 0)
    (hc : countNewlines c = 0) : countNewlines (colorWrap o c s) = countNewlines s := by
  simp [colorWrap, countNewlines_append, ho, hc]

theorem countNewlines_cBold (s : String) : countNewlines (cBold s) = countNewlines s :=
  countNewlines_colorWrap _ _ _ rfl rfl

theorem countNewlines_cDim (s : String) : countNewlines (cDim s) = countNewlines s :=
  countNewlines_colorWrap _ _ _ rfl rfl

theorem countNewlines_cGreen (s : String) : countNewlines (cGreen s) = countNewlines s :=
  countNewlines_colorWrap _ _ _ rfl rfl

theorem countNewlines_cCyan (s : String) : countNewlines (cCyan s) = countNewlines s :=
  countNewlines_colorWrap _ _ _ rfl rfl

theorem countNewlines_hintLine : countNewlines hintLine = 0 := rfl

theorem countNewlines_itemLine (label : String) (sel : Bool)
    (h : countNewlines label = 0) : countNewlines (itemLine label sel) = 0 := by
  have hsp : countNewlines " " = 0 := rfl
  have hsp3 : countNewlines "   " = 0 := rfl
  have hpt : countNewlines (cGreen "›") = 0 := rfl
  cases sel <;>
    simp [itemLine, countNewlines_append, countNewlines_cGreen, countNewlines_cBold, h,
      hsp, hsp3, hpt]

theorem menuLines_length (title : String) (items : List String) (idx : Nat) :
    (menuLines title items idx).length = items.length + 2 := by
  simp [menuLines]

theorem menuLines_countNewlines (title : String) (items : List String) (idx : Nat)
    (ht : countNewlines title = 0) (hi : ∀ x ∈ items, countNewlines x = 0) :
    ∀ l ∈ menuLines title items idx, countNewlines l = 0 := by
  intro l hl
  rw [menuLines] at hl
  rcases List.mem_cons.mp hl with rfl | hl2
  · simp [countNewlines_cCyan, countNewlines_cBold, ht]
  rcases List.mem_append.mp hl2 with hm | hs
  · rcases List.mem_map.mp hm with ⟨p, hp, rfl⟩
    exact countNewlines_itemLine _ _ (hi _ (List.snd_mem_of_mem_enumFrom hp))
  · rw [List.mem_singleton] at hs
    subst hs
    exact countNewlines_hintLine

theorem countNewlines_joinWith (lines : List String)
    (h : ∀ l ∈ lines, countNewlines l = 0) (hne : lines ≠ []) :
    countNewlines (joinWith "\n" lines ++ "\n") = lines.length := by
  induction lines with
  | nil => exact absurd rfl hne
  | cons x rest ih =>
    cases rest with
    | nil =>
      simp only [joinWith, countNewlines_append]
      have hx := h x (by simp)
      simp [hx]; rfl
    | cons y rest2 =>
      have hx := h x (by simp)
      have hrest : ∀ l ∈ y :: rest2, countNewlines l = 0 := by
        intro l hl; exact h l (by simp [hl])
      have hih := ih hrest (by simp)
      have h1 : countNewlines "\n" = 1 := rfl
      rw [countNewlines_append] at hih
      rw [show joinWith "\n" (x :: y :: rest2) = x ++ "\n" ++ joinWith "\n" (y :: rest2)
        from rfl]
      rw [countNewlines_append, countNewlines_append, countNewlines_append]
      simp only [hx, h1, List.length_cons] at hih ⊢
      omega

theorem blockEvent_countNewlines (s : MenuState)
    (ht : countNewlines s.title = 0) (hi : ∀ x ∈ s.items, countNewlines x = 0) :
    countNewlines (blockEvent s).data = s.items.length + 2 := by
  have := countNewlines_joinWith (menuLines s.title s.items s.idx)
    (menuLines_countNewlines _ _ _ ht hi) (by simp [menuLines])
  simpa [blockEvent, menuLines_length] using this

theorem blockEvent_countNewlines_pos (s : MenuState) :
    0 < countNewlines (blockEvent s).data := by
  simp only [blockEvent, countNewlines_append]
  have : countNewlines "\n" = 1 := rfl
  omega

theorem isEraseEvent_blockEvent (s : MenuState) :
    isEraseEvent (blockEvent s) = false := by
  have hpos := blockEvent_countNewlines_pos s
  have hz : countNewlines eraseSeq = 0 := rfl
  have hsink : ((blockEvent s).sink == Sink.stderr) = true := rfl
  rw [isEraseEvent, hsink, Bool.true_and, beq_eq_false_iff_ne]
  intro h
  rw [h] at hpos
  omega

theorem clearLines_eq_replicate (n : Nat) :
    clearLines n = List.replicate n ⟨Sink.stderr, eraseSeq⟩ := by
  induction n with
  | zero => rfl
  | succ m ih =>
    calc clearLines (m + 1)
        = (List.range m ++ [m]).flatMap (fun _ => writeStderr eraseSeq) := by
          rw [clearLines, List.range_succ]
      _ = clearLines m ++ writeStderr eraseSeq := by
          rw [List.flatMap_append, clearLines]; rfl
      _ = List.replicate m ⟨Sink.stderr, eraseSeq⟩ ++
            List.replicate 1 ⟨Sink.stderr, eraseSeq⟩ := by rw [ih]; rfl
      _ = List.replicate (m + 1) ⟨Sink.stderr, eraseSeq⟩ :=
          List.append_replicate_replicate

theorem clearLines_zero : clearLines 0 = [] := rfl

theorem mem_clearLines_isErase (n : Nat) :
    ∀ e ∈ clearLines n, isEraseEvent e = true := by
  intro e he
  rw [clearLines_eq_replicate] at he
  have := List.eq_of_mem_replicate he
  subst this
  rfl

theorem passesGo_clearLines (a n : Nat) (rest : List OutEvent) :
    passesGo a (clearLines n ++ rest) = passesGo (a + n) rest := by
  induction n generalizing a with
  | zero => simp [clearLines_zero]
  | succ m ih =>
    rw [clearLines_eq_replicate, List.replicate_succ, List.cons_append, passesGo]
    simp only [show isEraseEvent ⟨Sink.stderr, eraseSeq⟩ = true from rfl, if_true]
    rw [← clearLines_eq_replicate, ih]
    congr 1
    omega

theorem passesGo_block (a : Nat) (e : OutEvent) (h : isEraseEvent e = false)
    (rest : List OutEvent) :
    passesGo a (e :: rest) = ⟨a, countNewlines e.data⟩ :: passesGo 0 rest := by
  simp [passesGo, h]

theorem chainOk_cons_replicate (m a w : Nat) :
    chainOk (⟨a, w⟩ :: List.replicate m ⟨w, w⟩) = true := by
  induction m generalizing a with
  | zero => rfl
  | succ k ih =>
    rw [List.replicate_succ, chainOk]
    simp [ih]

theorem runKeys_done (s : MenuState) (r : Option String) (ks : List Key)
    (h : s.done = some r) : runKeys s ks = (s, []) := by
  induction ks with
  | nil => rfl
  | cons k ks ih =>
    have hk : onKeypress s k = (s, []) := by rw [onKeypress.eq_def, h]
    rw [runKeys, hk, ih]
    simp

theorem render_fst (s : MenuState) :
    (render s).1 = { s with renderedLines := s.items.length + 2 } := by
  simp [render, menuLines_length]

theorem render_snd (s : MenuState) :
    (render s).2 = clearLines s.renderedLines ++ [blockEvent s] := by
  by_cases h : s.renderedLines > 0
  · simp [render, h, writeStderr, blockEvent]
  · have h0 : s.renderedLines = 0 := by omega
    simp [render, h, h0, clearLines_zero, writeStderr, blockEvent]

theorem onKeypress_up (s : MenuState) (hdone : s.done = none) :
    onKeypress s Key.up =
      render { s with idx := (s.idx + s.items.length - 1) % s.items.length } := by
  rw [onKeypress.eq_def, hdone]

theorem onKeypress_down (s : MenuState) (hdone : s.done = none) :
    onKeypress s Key.down = render { s with idx := (s.idx + 1) % s.items.length } := by
  rw [onKeypress.eq_def, hdone]

theorem onKeypress_other (s : MenuState) (hdone : s.done = none) :
    onKeypress s Key.other = (s, []) := by
  rw [onKeypress.eq_def, hdone]

theorem cleanup_of_rendered (s : MenuState) (h : 0 < s.renderedLines) :
    cleanup s = ({ s with renderedLines := 0 }, clearLines s.renderedLines) := by
  rw [cleanup, if_pos h]

theorem onKeypress_enter (s : MenuState) (hdone : s.done = none) :
    onKeypress s Key.enter =
      ({ stopWidget (cleanup s).1 with
          done := some ((stopWidget (cleanup s).1).items.get?
            (stopWidget (cleanup s).1).idx) },
        (cleanup s).2) := by
  rw [onKeypress.eq_def, hdone]

theorem onKeypress_escape (s : MenuState) (hdone : s.done = none) :
    onKeypress s Key.escape =
      ({ stopWidget (cleanup s).1 with done := some none }, (cleanup s).2) := by
  rw [onKeypress.eq_def, hdone]

theorem onKeypress_ctrlC (s : MenuState) (hdone : s.done = none) :
    onKeypress s Key.ctrlC =
      ({ stopWidget (cleanup s).1 with done := some none }, (cleanup s).2) := by
  rw [onKeypress.eq_def, hdone]

theorem passesGo_clearLines_nil (a n : Nat) : passesGo a (clearLines n) = [] := by
  have h := passesGo_clearLines a n []
  rw [List.append_nil] at h
  rw [h]
  rfl

theorem runKeys_passes : ∀ (ks : List Key) (s : MenuState),
    s.done = none →
    s.renderedLines = s.items.length + 2 →
    countNewlines s.title = 0 →
    (∀ x ∈ s.items, countNewlines x = 0) →
    ∃ m, passesGo 0 (runKeys s ks).2 =
      List.replicate m ⟨s.items.length + 2, s.items.length + 2⟩ := by
  intro ks
  induction ks with
  | nil => intro s _ _ _ _; exact ⟨0, rfl⟩
  | cons k ks ih =>
    intro s hdone hrl ht hi
    have hpos : 0 < s.renderedLines := by omega
    cases k
    case up =>
      rw [runKeys, onKeypress_up s hdone]
      set s1 : MenuState :=
        { s with idx := (s.idx + s.items.length - 1) % s.items.length } with hs1
      obtain ⟨m, hm⟩ := ih (render s1).1 (by rw [render_fst]; exact hdone)
        (by rw [render_fst]) ht hi
      refine ⟨m + 1, ?_⟩
      rw [render_snd]
      have hm2 : passesGo 0 (runKeys (render s1).1 ks).2 =
          List.replicate m ⟨s.items.length + 2, s.items.length + 2⟩ := hm
      rw [List.append_assoc, show s1.renderedLines = s.renderedLines from rfl, hrl,
        passesGo_clearLines, List.singleton_append,
        passesGo_block _ _ (isEraseEvent_blockEvent s1),
        blockEvent_countNewlines s1 ht hi, hm2]
      simp [hs1, List.replicate_succ]
    case down =>
      rw [runKeys, onKeypress_down s hdone]
      set s1 : MenuState := { s with idx := (s.idx + 1) % s.items.length } with hs1
      obtain ⟨m, hm⟩ := ih (render s1).1 (by rw [render_fst]; exact hdone)
        (by rw [render_fst]) ht hi
      refine ⟨m + 1, ?_⟩
      rw [render_snd]
      have hm2 : passesGo 0 (runKeys (render s1).1 ks).2 =
          List.replicate m ⟨s.items.length + 2, s.items.length + 2⟩ := hm
      rw [List.append_assoc, show s1.renderedLines = s.renderedLines from rfl, hrl,
        passesGo_clearLines, List.singleton_append,
        passesGo_block _ _ (isEraseEvent_blockEvent s1),
        blockEvent_countNewlines s1 ht hi, hm2]
      simp [hs1, List.replicate_succ]
    case enter =>
      rw [runKeys, onKeypress_enter s hdone]
      refine ⟨0, ?_⟩
      simp [cleanup_of_rendered s hpos, runKeys_done, passesGo_clearLines_nil]
    case escape =>
      rw [runKeys, onKeypress_escape s hdone]
      refine ⟨0, ?_⟩
      simp [cleanup_of_rendered s hpos, runKeys_done, passesGo_clearLines_nil]
    case ctrlC =>
      rw [runKeys, onKeypress_ctrlC s hdone]
      refine ⟨0, ?_⟩
      simp [cleanup_of_rendered s hpos, runKeys_done, passesGo_clearLines_nil]
    case other =>
      rw [runKeys, onKeypress_other s hdone]
      obtain ⟨m, hm⟩ := ih s hdone hrl ht hi
      exact ⟨m, by rw [List.nil_append]; exact hm⟩

theorem selectMenuStart_true_true (items : List String) (title : String) (i0 : Nat) :
    selectMenuStart true true items title i0 =
      StartOutcome.started (startedState items title i0)
        [blockEvent (startedState items title i0)] := by
  rw [selectMenuStart, if_neg (by decide)]
  simp only [render_fst, render_snd]
  rfl

theorem selectMenuSession_true_true (items : List String) (title : String) (i0 : Nat)
    (keys : List Key) :
    selectMenuSession true true items title i0 keys =
      ((runKeys (startedState items title i0) keys).1.done,
        [blockEvent (startedState items title i0)] ++
          (runKeys (startedState items title i0) keys).2) := by
  rw [selectMenuSession, selectMenuStart_true_true]

theorem session_passes (items : List String) (title : String) (i0 : Nat) (keys : List Key)
    (ht : countNewlines title = 0) (hi : ∀ x ∈ items, countNewlines x = 0) :
    ∃ m, passesOfTrace (selectMenuSession true true items title i0 keys).2 =
      ⟨0, items.length + 2⟩ ::
        List.replicate m ⟨items.length + 2, items.length + 2⟩ := by
  obtain ⟨m, hm⟩ := runKeys_passes keys (startedState items title i0) rfl rfl ht hi
  refine ⟨m, ?_⟩
  rw [selectMenuSession_true_true]
  show passesGo 0 (blockEvent (startedState items title i0) ::
      (runKeys (startedState items title i0) keys).2) =
    ⟨0, items.length + 2⟩ :: List.replicate m ⟨items.length + 2, items.length + 2⟩
  rw [passesGo_block _ _ (isEraseEvent_blockEvent (startedState items title i0)),
    blockEvent_countNewlines (startedState items title i0) ht hi]
  have hm2 : passesGo 0 (runKeys (startedState items title i0) keys).2 =
      List.replicate m ⟨items.length + 2, items.length + 2⟩ := hm
  rw [hm2]
  rfl

theorem cleanup_fst_items (s : MenuState) : (cleanup s).1.items = s.items := by
  rw [cleanup]; split <;> rfl

theorem cleanup_fst_idx (s : MenuState) : (cleanup s).1.idx = s.idx := by
  rw [cleanup]; split <;> rfl

theorem cleanup_fst_needClose (s : MenuState) : (cleanup s).1.needClose = s.needClose := by
  rw [cleanup]; split <;> rfl

theorem cleanup_fst_renderedLines (s : MenuState) : (cleanup s).1.renderedLines = 0 := by
  rw [cleanup]
  split
  · rfl
  · next h => exact (by omega : s.renderedLines = 0)

theorem cleanup_snd (s : MenuState) : (cleanup s).2 = clearLines s.renderedLines := by
  rw [cleanup]
  split
  · rfl
  · next h =>
    have h0 : s.renderedLines = 0 := by omega
    rw [h0, clearLines_zero]

theorem stopWidget_items (s : MenuState) : (stopWidget s).items = s.items := by
  rw [stopWidget]; split <;> rfl

theorem stopWidget_idx (s : MenuState) : (stopWidget s).idx = s.idx := by
  rw [stopWidget]; split <;> rfl

theorem stopWidget_rawMode (s : MenuState) : (stopWidget s).rawMode = false := by
  rw [stopWidget]; split <;> rfl

theorem stopWidget_listening (s : MenuState) : (stopWidget s).listening = false := by
  rw [stopWidget]; split <;> rfl

theorem stopWidget_paused (s : MenuState) : (stopWidget s).paused = true := by
  rw [stopWidget]; split <;> rfl

theorem stopWidget_renderedLines (s : MenuState) :
    (stopWidget s).renderedLines = s.renderedLines := by
  rw [stopWidget]; split <;> rfl

theorem stopWidget_closed (s : MenuState) (h : s.needClose = true) :
    (stopWidget s).closed = true := by
  rw [stopWidget]
  split
  · rfl
  · next hn => exact absurd h hn

theorem filter_nonErase_clearLines (n : Nat) :
    (clearLines n).filter (fun e => !isEraseEvent e) = [] := by
  rw [List.filter_eq_nil_iff]
  intro a ha
  simp [mem_clearLines_isErase n a ha]

theorem filter_nonErase_block (s : MenuState) :
    ([blockEvent s]).filter (fun e => !isEraseEvent e) = [blockEvent s] := by
  simp [List.filter, isEraseEvent_blockEvent s]

/-- C1 (amended): in every menu session of the selector whose title and item
labels contain no newline characters, the trace of the session groups into
render passes such that every pass after the first erases exactly as many
lines as the immediately preceding pass physically wrote, and every render
records a `renderedLines` count equal to the number of physical lines its
block write completes.  (As originally stated, without the no-newline
proviso, the claim is false: see the counterexample.) -/
theorem c1_redraw_consistency (items : List String) (title : String) (i0 : Nat)
    (keys : List Key) (ht : countNewlines title = 0)
    (hi : ∀ x ∈ items, countNewlines x = 0) :
    (chainOk (passesOfTrace (selectMenuSession true true items title i0 keys).2) = true ∧
      ∀ p ∈ passesOfTrace (selectMenuSession true true items title i0 keys).2,
        p.written = items.length + 2) ∧
    ∀ s : MenuState, countNewlines s.title = 0 →
      (∀ x ∈ s.items, countNewlines x = 0) →
      ((render s).2.filter (fun e => !isEraseEvent e)).map
        (fun e => countNewlines e.data) = [(render s).1.renderedLines] := by
  constructor
  · obtain ⟨m, hp⟩ := session_passes items title i0 keys ht hi
    rw [hp]
    constructor
    · exact chainOk_cons_replicate m 0 (items.length + 2)
    · intro p hp2
      rcases List.mem_cons.mp hp2 with rfl | hrep
      · rfl
      · rw [List.eq_of_mem_replicate hrep]
  · intro s hts his
    rw [render_snd, List.filter_append, filter_nonErase_clearLines,
      filter_nonErase_block, List.nil_append, List.map_cons, List.map_nil,
      blockEvent_countNewlines s hts his, render_fst]

/-- C1 counterexample: with the single item `"a\nb"` (a label containing a
newline) the first render physically writes 4 terminal lines but records 3,
so the second render erases 3 lines where 4 were written: the redraw
consistency equation fails on this session. -/
theorem c1_counterexample :
    chainOk (passesOfTrace
      (selectMenuSession true true ["a\nb"] "Pick" 0 [Key.down]).2) = false := by
  decide

/-- C2: an Up key on an active widget state sets the index to
`(idx - 1 + N) mod N` and a Down key to `(idx + 1) mod N` (stated over the
integers exactly as the source computes them), each emitting exactly one new
block write (a re-render); and in the worked scenario with items
dev/staging/prod starting at index 1, Down yields 2, Down again yields 0,
and Enter resolves with the pick `"dev"`. -/
theorem c2_arrow_stepping :
    (∀ s : MenuState, s.done = none → s.items ≠ [] →
      (((onKeypress s Key.up).1.idx : Int) =
          ((s.idx : Int) - 1 + s.items.length) % (s.items.length : Int) ∧
        ((onKeypress s Key.down).1.idx : Int) =
          ((s.idx : Int) + 1) % (s.items.length : Int) ∧
        ((onKeypress s Key.up).2.filter (fun e => !isEraseEvent e)).length = 1 ∧
        ((onKeypress s Key.down).2.filter (fun e => !isEraseEvent e)).length = 1)) ∧
    ((selectMenuAfterKeys true true demoItems "Select a preset:" 1 [Key.down]).map
        (fun st => st.idx) = some 2 ∧
      (selectMenuAfterKeys true true demoItems "Select a preset:" 1
        [Key.down, Key.down]).map (fun st => st.idx) = some 0 ∧
      (selectMenuSession true true demoItems "Select a preset:" 1
        [Key.down, Key.down, Key.enter]).1 = some (some "dev")) := by
  constructor
  · intro s hdone hne
    have hN : 0 < s.items.length := List.length_pos.mpr hne
    refine ⟨?_, ?_, ?_, ?_⟩
    · have h1 : (onKeypress s Key.up).1.idx =
          (s.idx + s.items.length - 1) % s.items.length := by
        rw [onKeypress_up s hdone, render_fst]
      rw [h1]
      push_cast [Nat.cast_sub (show 1 ≤ s.idx + s.items.length by omega)]
      congr 1
      ring
    · have h1 : (onKeypress s Key.down).1.idx = (s.idx + 1) % s.items.length := by
        rw [onKeypress_down s hdone, render_fst]
      rw [h1]
      push_cast
      ring_nf
    · rw [onKeypress_up s hdone, render_snd, List.filter_append,
        filter_nonErase_clearLines, filter_nonErase_block, List.nil_append]
      rfl
    · rw [onKeypress_down s hdone, render_snd, List.filter_append,
        filter_nonErase_clearLines, filter_nonErase_block, List.nil_append]
      rfl
  · refine ⟨by decide, by decide, by decide⟩

/-- C3: pressing Enter on an active widget state with in-range index `i`
resolves the session with the pick `items[i]`, emits only the erasure of the
previously rendered block (no block write, hence no further render), and once
resolved the widget emits nothing more on any later key. -/
theorem c3_enter_resolves (s : MenuState) (hdone : s.done = none)
    (hlt : s.idx < s.items.length) :
    (onKeypress s Key.enter).1.done = some (some (s.items.get ⟨s.idx, hlt⟩)) ∧
    (onKeypress s Key.enter).2 = clearLines s.renderedLines ∧
    ((onKeypress s Key.enter).2.filter (fun e => !isEraseEvent e)) = [] ∧
    ∀ ks, (runKeys (onKeypress s Key.enter).1 ks).2 = [] := by
  refine ⟨?_, ?_, ?_, ?_⟩
  · rw [onKeypress_enter s hdone]
    show some ((stopWidget (cleanup s).1).items.get? (stopWidget (cleanup s).1).idx) = _
    rw [stopWidget_items, stopWidget_idx, cleanup_fst_items, cleanup_fst_idx,
      List.get?_eq_get hlt]
  · rw [onKeypress_enter s hdone]
    show (cleanup s).2 = _
    exact cleanup_snd s
  · rw [onKeypress_enter s hdone]
    show ((cleanup s).2.filter (fun e => !isEraseEvent e)) = []
    rw [cleanup_snd, filter_nonErase_clearLines]
  · intro ks
    rw [onKeypress_enter s hdone]
    show (runKeys { stopWidget (cleanup s).1 with
      done := some ((stopWidget (cleanup s).1).items.get?
        (stopWidget (cleanup s).1).idx) } ks).2 = []
    rw [runKeys_done _ ((stopWidget (cleanup s).1).items.get?
      (stopWidget (cleanup s).1).idx) ks rfl]

/-- C4: Escape or Ctrl+C on an active widget state resolves the session with
the null (cancelled) outcome, and on each of the three key-driven exit paths
the widget erases exactly its rendered lines, leaves raw mode off, stops
listening, pauses the stream, resets `renderedLines`, and closes the handle
whenever it opened one itself; on the non-interactive error path nothing was
rendered or acquired and only the report is emitted. -/
theorem c4_cancel_and_cleanup :
    (∀ s : MenuState, s.done = none → ∀ k : Key,
      (k = Key.escape ∨ k = Key.ctrlC) → (onKeypress s k).1.done = some none) ∧
    (∀ s : MenuState, s.done = none → ∀ k : Key,
      (k = Key.enter ∨ k = Key.escape ∨ k = Key.ctrlC) →
      (onKeypress s k).1.rawMode = false ∧
      (onKeypress s k).1.listening = false ∧
      (onKeypress s k).1.paused = true ∧
      (onKeypress s k).1.renderedLines = 0 ∧
      (s.needClose = true → (onKeypress s k).1.closed = true) ∧
      (onKeypress s k).2 = clearLines s.renderedLines) ∧
    (∀ (items : List String) (title : String) (i0 : Nat),
      selectMenuStart false false items title i0 =
        StartOutcome.failed (consoleError nonInteractiveMenuMsg)) := by
  refine ⟨?_, ?_, ?_⟩
  · intro s hdone k hk
    rcases hk with rfl | rfl
    · rw [onKeypress_escape s hdone]
    · rw [onKeypress_ctrlC s hdone]
  · intro s hdone k hk
    rcases hk with rfl | rfl | rfl <;>
      [rw [onKeypress_enter s hdone]; rw [onKeypress_escape s hdone];
        rw [onKeypress_ctrlC s hdone]] <;>
      refine ⟨?_, ?_, ?_, ?_, ?_, ?_⟩ <;>
      first
      | exact stopWidget_rawMode _
      | exact stopWidget_listening _
      | exact stopWidget_paused _
      | (show (stopWidget (cleanup s).1).renderedLines = 0 ;
          rw [stopWidget_renderedLines, cleanup_fst_renderedLines])
      | (intro hnc ;
          show (stopWidget (cleanup s).1).closed = true ;
          exact stopWidget_closed _ (by rw [cleanup_fst_needClose]; exact hnc))
      | (show (cleanup s).2 = clearLines s.renderedLines ; exact cleanup_snd s)
  · intro items title i0
    rw [selectMenuStart, if_pos (by decide)]

theorem selectMenuStart_of_ok (tty dev : Bool) (items : List String) (title : String)
    (i0 : Nat) (h : (!tty && !dev) = false) :
    selectMenuStart tty dev items title i0 =
      StartOutcome.started ({ startedState items title i0 with needClose := !tty })
        [blockEvent (startedState items title i0)] := by
  rw [selectMenuStart, if_neg (by simp [h])]
  simp only [render_fst, render_snd]
  rfl

theorem selectMenuSession_noninteractive (items : List String) (title : String)
    (i0 : Nat) (keys : List Key) :
    selectMenuSession false false items title i0 keys =
      (some none, consoleError nonInteractiveMenuMsg) := by
  rw [selectMenuSession, selectMenuStart, if_pos (by decide)]

theorem insertSorted_length (x : String) (l : List String) :
    (insertSorted x l).length = l.length + 1 := by
  induction l with
  | nil => rfl
  | cons y ys ih =>
    rw [insertSorted]
    split
    · rfl
    · simp [List.length_cons, ih]

theorem sortStrings_length (l : List String) : (sortStrings l).length = l.length := by
  induction l with
  | nil => rfl
  | cons x xs ih =>
    rw [show sortStrings (x :: xs) = insertSorted x (sortStrings xs) from rfl,
      insertSorted_length, ih, List.length_cons]

theorem all_stderr_clearLines (n : Nat) :
    ((clearLines n).all (fun e => e.sink == Sink.stderr)) = true := by
  rw [clearLines_eq_replicate, List.all_eq_true]
  intro e he
  rw [List.eq_of_mem_replicate he]
  rfl

theorem all_stderr_onKeypress (s : MenuState) (k : Key) :
    ((onKeypress s k).2.all (fun e => e.sink == Sink.stderr)) = true := by
  cases hdone : s.done with
  | some r =>
    have h : onKeypress s k = (s, []) := by rw [onKeypress.eq_def, hdone]
    rw [h]
    rfl
  | none =>
    cases k
    case up =>
      rw [onKeypress_up s hdone, render_snd, List.all_append, all_stderr_clearLines]
      rfl
    case down =>
      rw [onKeypress_down s hdone, render_snd, List.all_append, all_stderr_clearLines]
      rfl
    case enter =>
      rw [onKeypress_enter s hdone]
      show (((cleanup s).2).all (fun e => e.sink == Sink.stderr)) = true
      rw [cleanup_snd]
      exact all_stderr_clearLines s.renderedLines
    case escape =>
      rw [onKeypress_escape s hdone]
      show (((cleanup s).2).all (fun e => e.sink == Sink.stderr)) = true
      rw [cleanup_snd]
      exact all_stderr_clearLines s.renderedLines
    case ctrlC =>
      rw [onKeypress_ctrlC s hdone]
      show (((cleanup s).2).all (fun e => e.sink == Sink.stderr)) = true
      rw [cleanup_snd]
      exact all_stderr_clearLines s.renderedLines
    case other =>
      rw [onKeypress_other s hdone]
      rfl

theorem all_stderr_runKeys (ks : List Key) : ∀ s : MenuState,
    ((runKeys s ks).2.all (fun e => e.sink == Sink.stderr)) = true := by
  induction ks with
  | nil => intro s; rfl
  | cons k ks ih =>
    intro s
    have hsplit : (runKeys s (k :: ks)).2 =
        (onKeypress s k).2 ++ (runKeys (onKeypress s k).1 ks).2 := by rw [runKeys]
    rw [hsplit, List.all_append, all_stderr_onKeypress, ih]
    rfl

/-- C5: when standard input is not a TTY and opening `/dev/tty` also fails,
the selector reports the non-interactive condition and resolves null at once
(the whole session output is that single report, for any key list — no
retry); when `/dev/tty` does open, a session starts with a self-opened handle
(`needClose`); and `cmdList` with a non-interactive selector falls back to
plain list printing of the preset names on stdout. -/
theorem c5_noninteractive_fallback :
    (∀ (items : List String) (title : String) (i0 : Nat) (keys : List Key),
      selectMenuSession false false items title i0 keys =
        (some none, consoleError nonInteractiveMenuMsg)) ∧
    (∀ (items : List String) (title : String) (i0 : Nat),
      ∃ s evs, selectMenuStart false true items title i0 =
        StartOutcome.started s evs ∧ s.needClose = true) ∧
    (∀ (cfg : Config) (keys : List Key), cfg.envs ≠ [] →
      cmdListRun cfg false false keys =
        some (consoleError nonInteractiveMenuMsg ++
          cmdListFallbackOut cfg (sortStrings (cfg.envs.map Prod.fst)))) := by
  refine ⟨?_, ?_, ?_⟩
  · intro items title i0 keys
    exact selectMenuSession_noninteractive items title i0 keys
  · intro items title i0
    rw [selectMenuStart_of_ok false true items title i0 (by decide)]
    exact ⟨_, _, rfl, rfl⟩
  · intro cfg keys hne
    have hnames : (sortStrings (cfg.envs.map Prod.fst)).isEmpty = false := by
      cases hsort : sortStrings (cfg.envs.map Prod.fst) with
      | nil =>
        have hlen := sortStrings_length (cfg.envs.map Prod.fst)
        rw [hsort, List.length_map] at hlen
        exact absurd (List.length_eq_zero.mp hlen.symm) hne
      | cons a as => rfl
    simp only [cmdListRun, hnames, Bool.false_eq_true, if_false,
      selectMenuSession_noninteractive]

/-- C6: every byte a selector session emits — the initial render, every
redraw, every erase sequence, the final cleanup and even the
non-interactive report — is written to the error stream; no session ever
writes to standard output. -/
theorem c6_stream_separation :
    ∀ (stdinIsTTY devTtyOk : Bool) (items : List String) (title : String)
      (i0 : Nat) (keys : List Key),
      ((selectMenuSession stdinIsTTY devTtyOk items title i0 keys).2.all
        (fun e => e.sink == Sink.stderr)) = true := by
  intro tty dev items title i0 keys
  by_cases hc : (!tty && !dev) = true
  · rw [selectMenuSession, selectMenuStart, if_pos hc]
    rfl
  · have hc2 : (!tty && !dev) = false := by
      revert hc; cases (!tty && !dev) <;> simp
    rw [selectMenuSession, selectMenuStart_of_ok tty dev items title i0 hc2]
    show (([blockEvent (startedState items title i0)] ++
      (runKeys { startedState items title i0 with needClose := !tty } keys).2).all
        (fun e => e.sink == Sink.stderr)) = true
    rw [List.all_append, all_stderr_runKeys]
    rfl

theorem runKeys_cons_fst (s : MenuState) (k : Key) (ks : List Key) :
    (runKeys s (k :: ks)).1 = (runKeys (onKeypress s k).1 ks).1 := by
  rw [runKeys]

theorem runKeys_replicate_down : ∀ (k : Nat) (s : MenuState), s.done = none →
    s.idx < s.items.length →
    (runKeys s (List.replicate k Key.down)).1.idx = (s.idx + k) % s.items.length ∧
    (runKeys s (List.replicate k Key.down)).1.items = s.items := by
  intro k
  induction k with
  | zero =>
    intro s hdone hlt
    exact ⟨by simp [runKeys, Nat.mod_eq_of_lt hlt], rfl⟩
  | succ n ih =>
    intro s hdone hlt
    have hN : 0 < s.items.length := by omega
    have hstep : (runKeys s (List.replicate (n + 1) Key.down)).1 =
        (runKeys (render { s with idx := (s.idx + 1) % s.items.length }).1
          (List.replicate n Key.down)).1 := by
      rw [List.replicate_succ, runKeys_cons_fst, onKeypress_down s hdone]
    obtain ⟨hidx, hitems⟩ :=
      ih (render { s with idx := (s.idx + 1) % s.items.length }).1
        (by rw [render_fst]; exact hdone)
        (by rw [render_fst]; exact Nat.mod_lt _ hN)
    constructor
    · rw [hstep]
      have hidx2 : (runKeys (render { s with idx := (s.idx + 1) % s.items.length }).1
          (List.replicate n Key.down)).1.idx =
          ((s.idx + 1) % s.items.length + n) % s.items.length := hidx
      rw [hidx2, Nat.mod_add_mod]
      congr 1
      omega
    · rw [hstep]
      exact hitems

/-- C7: on any active widget state with an in-range index, pressing Down
`items.length` times returns the selected index to its starting value; and on
a one-item list both Up and Down leave the index unchanged while Enter still
resolves with the pick of that single item. -/
theorem c7_cyclic_invariant :
    (∀ s : MenuState, s.done = none → s.idx < s.items.length →
      (runKeys s (List.replicate s.items.length Key.down)).1.idx = s.idx) ∧
    (∀ (s : MenuState) (x : String), s.done = none → s.items = [x] →
      s.idx < s.items.length →
      (onKeypress s Key.up).1.idx = s.idx ∧
      (onKeypress s Key.down).1.idx = s.idx ∧
      (onKeypress s Key.enter).1.done = some (some x)) := by
  constructor
  · intro s hdone hlt
    obtain ⟨hidx, _⟩ := runKeys_replicate_down s.items.length s hdone hlt
    rw [hidx, Nat.add_mod_right]
    exact Nat.mod_eq_of_lt hlt
  · intro s x hdone hitems hlt
    have hidx0 : s.idx = 0 := by
      rw [hitems] at hlt
      simp at hlt
      omega
    refine ⟨?_, ?_, ?_⟩
    · have h1 : (onKeypress s Key.up).1.idx =
          (s.idx + s.items.length - 1) % s.items.length := by
        rw [onKeypress_up s hdone, render_fst]
      rw [h1, hitems, hidx0]
      rfl
    · have h1 : (onKeypress s Key.down).1.idx = (s.idx + 1) % s.items.length := by
        rw [onKeypress_down s hdone, render_fst]
      rw [h1, hitems, hidx0]
      simp
    · rw [onKeypress_enter s hdone]
      show some ((stopWidget (cleanup s).1).items.get? (stopWidget (cleanup s).1).idx) = _
      rw [stopWidget_items, stopWidget_idx, cleanup_fst_items, cleanup_fst_idx,
        hitems, hidx0]
      rfl

theorem firstViolation_none_iff (vars : List (String × String)) :
    firstViolation vars = none ↔
      ∀ p ∈ vars, isValidKey p.1 = true ∧ hasNewline p.2 = false := by
  induction vars with
  | nil => simp [firstViolation]
  | cons kv rest ih =>
    obtain ⟨k, v⟩ := kv
    rw [firstViolation]
    by_cases hk : isValidKey k = true
    · by_cases hv : hasNewline v = true
      · simp [hk, hv]
      · have hv2 : hasNewline v = false := by
          cases hb : hasNewline v
          · rfl
          · exact absurd hb hv
        simp [hk, hv2, ih]
    · have hk2 : isValidKey k = false := by
        cases hb : isValidKey k
        · rfl
        · exact absurd hb hk
      simp [hk2]

theorem isKeyChar_ne_newline (c : Char) (h : isKeyChar c = true) :
    (c == Char.ofNat 10) = false := by
  cases hb : (c == Char.ofNat 10) with
  | false => rfl
  | true =>
    have hc := eq_of_beq hb
    subst hc
    exact absurd h (by decide)

theorem countNewlines_of_no_nl (s : String)
    (h : ∀ c ∈ s.data, (c == Char.ofNat 10) = false) : countNewlines s = 0 := by
  rw [countNewlines, List.countP_eq_zero]
  intro a ha
  simp [h a ha]

theorem isValidKey_no_nl (k : String) (hk : isValidKey k = true) :
    ∀ c ∈ k.data, (c == Char.ofNat 10) = false := by
  intro c hc
  rw [isValidKey] at hk
  have hall : k.data.all isKeyChar = true := by
    cases hb : k.data.all isKeyChar
    · rw [hb, Bool.and_false] at hk
      exact absurd hk (by decide)
    · rfl
  exact isKeyChar_ne_newline c (List.all_eq_true.mp hall c hc)

theorem hasNewline_false_no_nl (v : String) (hv : hasNewline v = false) :
    ∀ c ∈ v.data, (c == Char.ofNat 10) = false := by
  intro c hc
  rw [hasNewline] at hv
  have h2 := (List.any_eq_false.mp hv) c hc
  cases hb : (c == Char.ofNat 10) with
  | false => rfl
  | true => exact absurd (by simp [hb]) h2

theorem shellQuote_no_nl (v : String) (hv : ∀ c ∈ v.data, (c == Char.ofNat 10) = false) :
    ∀ c ∈ (shellQuote v).data, (c == Char.ofNat 10) = false := by
  intro c hc
  have hc2 : c ∈ squote :: (v.data.flatMap quoteChar ++ [squote]) := hc
  rcases List.mem_cons.mp hc2 with rfl | hc3
  · rfl
  rcases List.mem_append.mp hc3 with hm | hs
  · rcases List.mem_flatMap.mp hm with ⟨a, ha, hca⟩
    rw [quoteChar] at hca
    by_cases hq : (a == squote) = true
    · rw [if_pos hq] at hca
      have hca2 : c = squote ∨ c = backslashChar := by
        simp at hca
        tauto
      rcases hca2 with rfl | rfl <;> rfl
    · rw [if_neg hq] at hca
      rw [List.mem_singleton] at hca
      rw [hca]
      exact hv a ha
  · rw [List.mem_singleton] at hs
    subst hs
    rfl

theorem countNewlines_exportStatement (k v : String) (hk : isValidKey k = true)
    (hv : hasNewline v = false) : countNewlines (exportStatement k v) = 0 := by
  rw [exportStatement, countNewlines_append, countNewlines_append,
    countNewlines_append, countNewlines_append]
  have h1 : countNewlines "export " = 0 := rfl
  have h2 : countNewlines "=" = 0 := rfl
  have h3 : countNewlines ";" = 0 := rfl
  have h4 : countNewlines k = 0 := countNewlines_of_no_nl k (isValidKey_no_nl k hk)
  have h5 : countNewlines (shellQuote v) = 0 :=
    countNewlines_of_no_nl _ (shellQuote_no_nl v (hasNewline_false_no_nl v hv))
  omega

theorem exportStatement_ne_empty (k v : String) : exportStatement k v ≠ "" := by
  intro h
  have hlen := congrArg String.length h
  rw [exportStatement, String.length_append, String.length_append,
    String.length_append, String.length_append] at hlen
  have h7 : ("export " : String).length = 7 := rfl
  have h0 : ("" : String).length = 0 := rfl
  rw [h7, h0] at hlen
  omega

theorem joinWith_cons_ne_empty (x : String) (rest : List String) (hx : x ≠ "") :
    joinWith "\n" (x :: rest) ≠ "" := by
  cases rest with
  | nil => exact hx
  | cons y r =>
    intro h
    have hlen := congrArg String.length h
    rw [show joinWith "\n" (x :: y :: r) = x ++ "\n" ++ joinWith "\n" (y :: r) from rfl,
      String.length_append, String.length_append] at hlen
    have h1 : ("\n" : String).length = 1 := rfl
    have h0 : ("" : String).length = 0 := rfl
    rw [h1, h0] at hlen
    omega

theorem splitCharsOn_cons_sep (sep c : Char) (cs : List Char) (h : (c == sep) = true) :
    splitCharsOn sep (c :: cs) = [] :: splitCharsOn sep cs := by
  rw [splitCharsOn.eq_def]
  simp [h]

theorem splitCharsOn_cons_nosep (sep c : Char) (cs : List Char) (h : (c == sep) = false)
    (g : List Char) (gs : List (List Char)) (hr : splitCharsOn sep cs = g :: gs) :
    splitCharsOn sep (c :: cs) = (c :: g) :: gs := by
  rw [splitCharsOn.eq_def]
  simp [h, hr]

theorem splitCharsOn_ne_nil (sep : Char) : ∀ l : List Char, splitCharsOn sep l ≠ [] := by
  intro l
  induction l with
  | nil => simp [splitCharsOn]
  | cons c cs ih =>
    by_cases hc : (c == sep) = true
    · rw [splitCharsOn_cons_sep sep c cs hc]
      simp
    · have hc2 : (c == sep) = false := by
        cases hb : (c == sep)
        · rfl
        · exact absurd hb hc
      cases hr : splitCharsOn sep cs with
      | nil => exact absurd hr ih
      | cons g gs =>
        rw [splitCharsOn_cons_nosep sep c cs hc2 g gs hr]
        simp

theorem splitCharsOn_append_of_nosep (sep : Char) : ∀ (xs : List Char),
    (∀ c ∈ xs, (c == sep) = false) → ∀ (rest g : List Char)
    (gs : List (List Char)), splitCharsOn sep rest = g :: gs →
    splitCharsOn sep (xs ++ rest) = (xs ++ g) :: gs := by
  intro xs
  induction xs with
  | nil =>
    intro _ rest g gs hr
    simpa using hr
  | cons c cs ih =>
    intro h rest g gs hr
    have hc := h c (by simp)
    have hcs : ∀ a ∈ cs, (a == sep) = false := fun a ha => h a (by simp [ha])
    have hmid := ih hcs rest g gs hr
    rw [List.cons_append, splitCharsOn_cons_nosep sep c (cs ++ rest) hc (cs ++ g) gs hmid,
      List.cons_append]

theorem linesOf_joinWith : ∀ stmts : List String, stmts ≠ [] →
    (∀ t ∈ stmts, ∀ c ∈ t.data, (c == Char.ofNat 10) = false) →
    linesOf (joinWith "\n" stmts ++ "\n") = stmts ++ [""] := by
  intro stmts
  induction stmts with
  | nil => intro h _; exact absurd rfl h
  | cons x rest ih =>
    intro _ hfree
    have hx : ∀ c ∈ x.data, (c == Char.ofNat 10) = false := hfree x (by simp)
    have hnl : ("\n" : String).data = [Char.ofNat 10] := rfl
    cases rest with
    | nil =>
      rw [linesOf]
      have hdata : (joinWith "\n" [x] ++ "\n").data =
          x.data ++ (Char.ofNat 10 :: []) := by
        rw [show joinWith "\n" [x] = x from rfl, String.data_append, hnl]
      rw [hdata,
        splitCharsOn_append_of_nosep (Char.ofNat 10) x.data hx _ [] [[]]
          (by rw [splitCharsOn_cons_sep (Char.ofNat 10) (Char.ofNat 10) [] (by decide)]
              rfl),
        List.append_nil]
      rfl
    | cons y rest2 =>
      have hfree2 : ∀ t ∈ y :: rest2, ∀ c ∈ t.data, (c == Char.ofNat 10) = false :=
        fun t ht => hfree t (by simp [ht])
      have hih := ih (by simp) hfree2
      obtain ⟨g, gs, hgs⟩ : ∃ g gs,
          splitCharsOn (Char.ofNat 10)
            ((joinWith "\n" (y :: rest2) ++ "\n").data) = g :: gs := by
        cases hsp : splitCharsOn (Char.ofNat 10)
            ((joinWith "\n" (y :: rest2) ++ "\n").data) with
        | nil => exact absurd hsp (splitCharsOn_ne_nil _ _)
        | cons g gs => exact ⟨g, gs, rfl⟩
      have hmap : (g :: gs).map String.mk = (y :: rest2) ++ [""] := by
        rw [linesOf, hgs] at hih
        exact hih
      have hdata : (joinWith "\n" (x :: y :: rest2) ++ "\n").data =
          x.data ++ (Char.ofNat 10 :: ((joinWith "\n" (y :: rest2) ++ "\n").data)) := by
        rw [show joinWith "\n" (x :: y :: rest2) =
            x ++ "\n" ++ joinWith "\n" (y :: rest2) from rfl]
        simp only [String.data_append, hnl]
        simp [List.append_assoc]
      rw [linesOf, hdata,
        splitCharsOn_append_of_nosep (Char.ofNat 10) x.data hx _ [] (g :: gs)
          (by rw [splitCharsOn_cons_sep (Char.ofNat 10) (Char.ofNat 10) _ (by decide),
                hgs]),
        List.append_nil, List.map_cons, hmap]
      rfl

theorem shellParseGo_quoted : ∀ cs : List Char,
    shellParseGo true (cs.flatMap quoteChar ++ [squote]) = some cs := by
  intro cs
  induction cs with
  | nil => rfl
  | cons c cs ih =>
    by_cases hc : c = squote
    · subst hc
      have h1 : (squote == squote) = true := rfl
      have h2 : (backslashChar == squote) = false := rfl
      have h3 : (backslashChar == backslashChar) = true := rfl
      show shellParseGo true (squote :: backslashChar :: squote :: squote ::
        (cs.flatMap quoteChar ++ [squote])) = some (squote :: cs)
      have s3 : shellParseGo false (squote :: (cs.flatMap quoteChar ++ [squote])) =
          some cs := by
        rw [shellParseGo.eq_def]
        simp [h1, ih]
      have s2 : shellParseGo false (backslashChar :: squote :: squote ::
          (cs.flatMap quoteChar ++ [squote])) = some (squote :: cs) := by
        rw [shellParseGo.eq_def]
        simp [h2, h3, s3]
      rw [shellParseGo.eq_def]
      simp [h1, s2]
    · have hq : quoteChar c = [c] := by rw [quoteChar, if_neg (by simp [hc])]
      have hb : (c == squote) = false := by simp [hc]
      show shellParseGo true ((c :: cs).flatMap quoteChar ++ [squote]) = some (c :: cs)
      rw [List.flatMap_cons, hq, List.singleton_append, List.cons_append,
        shellParseGo.eq_def]
      simp [hb, ih]

/-- C8: for every list of validated key/value pairs, the stdout payload of
`cmdUse` splits on newlines into exactly one `export KEY=value;` statement
per pair (plus the trailing empty line of the final newline); the quoted
value always survives POSIX shell word parsing unchanged (every embedded
single quote is escaped so that the shell reads back the original value);
and the quoted value is wrapped in single quotes. -/
theorem c8_shell_export :
    (∀ vars : List (String × String), firstViolation vars = none → vars ≠ [] →
      linesOf (cmdUseStdout vars) =
        vars.map (fun p => exportStatement p.1 p.2) ++ [""]) ∧
    (∀ v : String, shellParseWord (shellQuote v) = some v) ∧
    (∀ v : String, (shellQuote v).data.head? = some squote ∧
      (shellQuote v).data.getLast? = some squote) := by
  refine ⟨?_, ?_, ?_⟩
  · intro vars hval hne
    have hall := (firstViolation_none_iff vars).mp hval
    have hfree : ∀ t ∈ vars.map (fun p => exportStatement p.1 p.2),
        ∀ c ∈ t.data, (c == Char.ofNat 10) = false := by
      intro t ht c hc
      rcases List.mem_map.mp ht with ⟨p, hp, rfl⟩
      have hz : countNewlines (exportStatement p.1 p.2) = 0 :=
        countNewlines_exportStatement p.1 p.2 (hall p hp).1 (hall p hp).2
      rw [countNewlines, List.countP_eq_zero] at hz
      have hnp := hz c hc
      cases hb : (c == Char.ofNat 10) with
      | false => rfl
      | true => exact absurd hb hnp
    have hmapne : vars.map (fun p => exportStatement p.1 p.2) ≠ [] := by
      cases vars with
      | nil => exact absurd rfl hne
      | cons p rest => simp
    have hout : cmdUseStdout vars =
        joinWith "\n" (vars.map (fun p => exportStatement p.1 p.2)) ++ "\n" := by
      rw [cmdUseStdout, exportOut]
      cases vars with
      | nil => exact absurd rfl hne
      | cons p rest =>
        have hne2 : joinWith "\n" (exportStatement p.1 p.2 ::
            rest.map (fun q => exportStatement q.1 q.2)) ≠ "" :=
          joinWith_cons_ne_empty _ _ (exportStatement_ne_empty p.1 p.2)
        rw [if_neg (by simp [hne2])]
    rw [hout]
    exact linesOf_joinWith _ hmapne hfree
  · intro v
    rw [shellParseWord, shellQuote]
    show (shellParseGo false (squote :: (v.data.flatMap quoteChar ++ [squote]))).map
      String.mk = some v
    have h1 : (squote == squote) = true := rfl
    have hmid : shellParseGo false (squote :: (v.data.flatMap quoteChar ++ [squote])) =
        some v.data := by
      rw [shellParseGo.eq_def]
      simp [h1, shellParseGo_quoted]
    rw [hmid]
    rfl
  · intro v
    refine ⟨rfl, ?_⟩
    show (squote :: (v.data.flatMap quoteChar ++ [squote])).getLast? = some squote
    rw [show squote :: (v.data.flatMap quoteChar ++ [squote]) =
        (squote :: v.data.flatMap quoteChar) ++ [squote] from
      (List.cons_append _ _ _).symm]
    rw [List.getLast?_append]
    rfl

theorem readConfig_malformed (raw : String) (h : jsTrim raw ≠ "") :
    readConfig true raw none = ReadResult.corrupted := by
  unfold readConfig
  rw [if_neg (by decide), if_neg (by simp [h])]

theorem readConfig_nonobject (raw : String) (j : Json) (h : jsTrim raw ≠ "")
    (hj : (isFalsy j || !typeofIsObject j) = true) :
    readConfig true raw (some j) = ReadResult.corrupted := by
  unfold readConfig
  rw [if_neg (by decide), if_neg (by simp [h])]
  simp [hj]

theorem tmpPath_ne_configPath (home : String) (now pid : Nat) :
    tmpPath home now pid ≠ configPath home := by
  intro h
  have hd := congrArg (fun s => s.data.getLast?) h
  simp only [tmpPath, configPath, configDir, String.data_append,
    List.getLast?_append] at hd
  have h1 : (".tmp" : String).data.getLast? = some (Char.ofNat 112) := rfl
  have h2 : ("/config.json" : String).data.getLast? = some (Char.ofNat 110) := rfl
  rw [h1, h2, Option.or_some, Option.or_some] at hd
  exact absurd (Option.some.inj hd) (by decide)

/-- C9 counterexample: a config file whose content is whitespace only (which
`JSON.parse` rejects, i.e. malformed content) is silently replaced by the
default configuration instead of failing with the corruption error. -/
theorem c9_counterexample :
    readConfig true "   " none = ReadResult.ok defaultConfigJson ∧
    readConfig true "   " none ≠ ReadResult.corrupted := by
  constructor
  · rfl
  · intro h
    rw [show readConfig true "   " none = ReadResult.ok defaultConfigJson from rfl] at h
    exact ReadResult.noConfusion h

/-- C9 (amended): loading an existing config file whose content is non-blank
and malformed (the parse fails), or parses to a falsy or non-object value,
fails with the distinct corruption error path instead of silently resetting
(blank or whitespace-only content silently yields the default configuration);
and saving writes the serialized config to a temporary path distinct from the
target and then renames it over the target. -/
theorem c9_corruption_and_atomic_save :
    (∀ (raw : String) (parsed : Option Json), jsTrim raw ≠ "" → parsed = none →
      readConfig true raw parsed = ReadResult.corrupted) ∧
    (∀ (raw : String) (j : Json), jsTrim raw ≠ "" →
      (isFalsy j || !typeofIsObject j) = true →
      readConfig true raw (some j) = ReadResult.corrupted) ∧
    (∀ (home : String) (now pid : Nat) (cfg : Json),
      writeConfig home now pid cfg =
        [FsOp.mkdirRec (configDir home),
         FsOp.write (tmpPath home now pid) (stringifyVal 0 cfg ++ "\n"),
         FsOp.rename (tmpPath home now pid) (configPath home)] ∧
      tmpPath home now pid ≠ configPath home) := by
  refine ⟨?_, ?_, ?_⟩
  · intro raw parsed h hp
    subst hp
    exact readConfig_malformed raw h
  · intro raw j h hj
    exact readConfig_nonobject raw j h hj
  · intro home now pid cfg
    exact ⟨rfl, tmpPath_ne_configPath home now pid⟩

theorem cmdUseRun_found (cfg : Config) (name : String) (vars : List (String × String))
    (h : lookupEnv cfg name = some vars) :
    cmdUseRun cfg name =
      match firstViolation vars with
      | some (Violation.badKey k) =>
        [Effect.stderrLine ("Invalid key name: " ++ k ++ ". Should match [A-Z0-9_]+"),
         Effect.exitErr]
      | some (Violation.newlineValue k) =>
        [Effect.stderrLine ("Value contains newline; cannot export: " ++ k),
         Effect.stderrLine "Please make it a single line via `quickenv set`.",
         Effect.exitErr]
      | none =>
        [Effect.saveConfig { cfg with current := some name },
         Effect.stdoutWrite (cmdUseStdout vars)] := by
  unfold cmdUseRun
  rw [h]

theorem firstViolation_none_of_all (vars : List (String × String))
    (h : ∀ p ∈ vars, isValidKey p.1 = true ∧ hasNewline p.2 = false) :
    firstViolation vars = none :=
  (firstViolation_none_iff vars).mpr h

/-- C10: for a loaded config and a preset name present in it, `cmdUse`
validates every key/value pair before any side effect: the validation
predicate holds of all pairs exactly when the scan finds no violation; if any
pair fails, the run emits no save and no stdout write and exits with an
error; and only when all pairs pass does it persist the config with `current`
set to the chosen name and write the export lines to stdout. -/
theorem c10_use_atomicity :
    ∀ (cfg : Config) (name : String) (vars : List (String × String)),
      lookupEnv cfg name = some vars →
      ((firstViolation vars = none ↔
          ∀ p ∈ vars, isValidKey p.1 = true ∧ hasNewline p.2 = false) ∧
        (firstViolation vars ≠ none →
          (∀ e ∈ cmdUseRun cfg name,
            (∀ c, e ≠ Effect.saveConfig c) ∧ (∀ s, e ≠ Effect.stdoutWrite s)) ∧
          Effect.exitErr ∈ cmdUseRun cfg name) ∧
        (firstViolation vars = none →
          cmdUseRun cfg name =
            [Effect.saveConfig { cfg with current := some name },
             Effect.stdoutWrite (cmdUseStdout vars)])) := by
  intro cfg name vars hlook
  refine ⟨firstViolation_none_iff vars, ?_, ?_⟩
  · intro hne
    cases hv : firstViolation vars with
    | none => exact absurd hv hne
    | some viol =>
      cases viol with
      | badKey k =>
        rw [cmdUseRun_found cfg name vars hlook, hv]
        constructor
        · intro e he
          simp only [List.mem_cons, List.mem_singleton] at he
          rcases he with rfl | rfl | h0
          · exact ⟨fun c => by simp, fun s => by simp⟩
          · exact ⟨fun c => by simp, fun s => by simp⟩
          · exact absurd h0 (by simp)
        · simp
      | newlineValue k =>
        rw [cmdUseRun_found cfg name vars hlook, hv]
        constructor
        · intro e he
          simp only [List.mem_cons, List.mem_singleton] at he
          rcases he with rfl | rfl | rfl | h0
          · exact ⟨fun c => by simp, fun s => by simp⟩
          · exact ⟨fun c => by simp, fun s => by simp⟩
          · exact ⟨fun c => by simp, fun s => by simp⟩
          · exact absurd h0 (by simp)
        · simp
  · intro hnone
    rw [cmdUseRun_found cfg name vars hlook, hnone]

theorem c1_redraw_consistency_witness :
    chainOk (passesOfTrace (selectMenuSession true true demoItems
      "Select a preset:" 1 [Key.down]).2) = true :=
  ((c1_redraw_consistency demoItems "Select a preset:" 1 [Key.down] rfl
    (by decide)).1).1

theorem c2_arrow_stepping_witness :
    ((onKeypress (startedState demoItems "T" 1) Key.up).1.idx : Int) =
      (((startedState demoItems "T" 1).idx : Int) - 1 +
        (startedState demoItems "T" 1).items.length) %
        ((startedState demoItems "T" 1).items.length : Int) :=
  (c2_arrow_stepping.1 (startedState demoItems "T" 1) rfl (by decide)).1

theorem c3_enter_resolves_witness :
    (onKeypress (startedState demoItems "T" 1) Key.enter).1.done =
      some (some ((startedState demoItems "T" 1).items.get
        ⟨(startedState demoItems "T" 1).idx, by decide⟩)) :=
  (c3_enter_resolves (startedState demoItems "T" 1) rfl (by decide)).1

theorem c4_cancel_and_cleanup_witness :
    (onKeypress (startedState demoItems "T" 0) Key.escape).1.done = some none :=
  c4_cancel_and_cleanup.1 (startedState demoItems "T" 0) rfl Key.escape (Or.inl rfl)

theorem c5_noninteractive_fallback_witness :
    cmdListRun demoConfig false false [] =
      some (consoleError nonInteractiveMenuMsg ++
        cmdListFallbackOut demoConfig (sortStrings (demoConfig.envs.map Prod.fst))) :=
  c5_noninteractive_fallback.2.2 demoConfig [] (by decide)

theorem c7_cyclic_invariant_witness :
    (runKeys (startedState demoItems "T" 1)
      (List.replicate (startedState demoItems "T" 1).items.length Key.down)).1.idx =
      (startedState demoItems "T" 1).idx :=
  c7_cyclic_invariant.1 (startedState demoItems "T" 1) rfl (by decide)

theorem c8_shell_export_witness :
    linesOf (cmdUseStdout demoVars) =
      demoVars.map (fun p => exportStatement p.1 p.2) ++ [""] :=
  c8_shell_export.1 demoVars (by decide) (by decide)

theorem c9_corruption_and_atomic_save_witness :
    readConfig true "nonsense" none = ReadResult.corrupted :=
  c9_corruption_and_atomic_save.1 "nonsense" none (by decide) rfl

theorem c10_use_atomicity_witness :
    cmdUseRun demoConfig "dev" =
      [Effect.saveConfig { demoConfig with current := some "dev" },
       Effect.stdoutWrite (cmdUseStdout [("API_URL", "x")])] :=
  (c10_use_atomicity demoConfig "dev" [("API_URL", "x")] (by decide)).2.2 (by decide)

end QuickEnv
